import Mathlib

/-!
Shallow embedding of the pipeline core of `simulation_main.py`
(IoT appliance-usage simulation): the `LiveStats` aggregator, the
JSON payload model, the `ApplicationLayer` consumer, the `MQTTClient`
transport, and the simulated replay loop of `simulate_device`.

Python floats are modelled as rationals (`ℚ`); the initial
`float('inf')` stored in `min_power` is modelled as `none : Option ℚ`
(every finite value is `some q`).  Python's `int(x)` truncation toward
zero is `truncQ`.  The visual bar returned by `get_power_bar` is a
`List Bool` (`true` = filled cell `█`, `false` = empty cell `░`);
Python's `"█" * k` for `k < 0` is the empty string, which is exactly
`List.replicate (Int.toNat k) _`.
-/

namespace IoTSim

/-- Python truncation toward zero, `int(x)`. -/
def truncQ (q : ℚ) : ℤ := if 0 ≤ q then ⌊q⌋ else ⌈q⌉

/-- Clamping of a ratio to the unit interval (used to state the spec's
"normalized ratio clamped to `[0,1]`"; the source itself never clamps). -/
def clamp01 (q : ℚ) : ℚ := max 0 (min 1 q)

/-! ## LiveStats (`class LiveStats`, `simulation_main.py` lines 52-86) -/

/-- Append for a `deque(maxlen=cap)`: add on the right, evict from the
left when capacity is exceeded. -/
def pushRecent (cap : ℕ) (l : List ℚ) (p : ℚ) : List ℚ :=
  let l2 := l ++ [p]
  l2.drop (l2.length - cap)

/-- State of `LiveStats`.  `min_power = none` is the initial
`float('inf')`; `recent_powers` holds the deque's contents oldest
first. -/
structure LiveStats where
  device_id : String
  device_name : String
  message_count : ℕ
  total_power : ℚ
  max_power : ℚ
  min_power : Option ℚ
  current_power : ℚ
  recent_powers : List ℚ
deriving Repr

/-- Constructor `LiveStats.__init__`. -/
def LiveStats.init (d n : String) : LiveStats :=
  { device_id := d, device_name := n, message_count := 0, total_power := 0,
    max_power := 0, min_power := none, current_power := 0, recent_powers := [] }

/-- Method `LiveStats.add_data(power)` (lines 65-72). -/
def LiveStats.add_data (s : LiveStats) (power : ℚ) : LiveStats :=
  { s with
    message_count := s.message_count + 1
    total_power := s.total_power + power
    max_power := max s.max_power power
    min_power := some (match s.min_power with
      | none => power
      | some m => min m power)
    current_power := power
    recent_powers := pushRecent 20 s.recent_powers power }

/-- A fresh aggregator fed the whole sequence `ps` by repeated
`add_data` calls. -/
def LiveStats.replay (d n : String) (ps : List ℚ) : LiveStats :=
  ps.foldl LiveStats.add_data (LiveStats.init d n)

/-- Method `LiveStats.get_avg_power` (lines 74-76). -/
def LiveStats.get_avg_power (s : LiveStats) : ℚ :=
  if 0 < s.message_count then s.total_power / s.message_count else 0

/-- Method `LiveStats.get_power_bar(width)` (lines 78-86).  Cell `true` is a
filled block, `false` an empty block; `List.replicate (Int.toNat k)`
reproduces Python string repetition, which yields `""` for negative
counts. -/
def LiveStats.get_power_bar (s : LiveStats) (width : ℕ) : List Bool :=
  if s.max_power = 0 then List.replicate width false
  else
    let normalized : ℚ := if 0 < s.max_power then s.current_power / s.max_power else 0
    let filled : ℤ := truncQ (normalized * width)
    List.replicate filled.toNat true ++ List.replicate ((width - filled).toNat) false

/-- The ratio the spec says the bar visualizes: `current/max`, `0` when
`max == 0`. -/
def powerFrac (s : LiveStats) : ℚ :=
  if s.max_power = 0 then 0 else s.current_power / s.max_power

/-! ## JSON payload model

The wire payload is the JSON object built in `simulate_device`
(lines 597-601) with exactly the keys `device_id`, `timestamp`,
`power`.  The textual step `json.loads(json.dumps(payload))` is the
Python standard library (outside this repository) and is modelled by
its round-trip contract, i.e. the wire carries the JSON object itself.
Field values in this program are strings or numbers, so a primitive
JSON value suffices. -/

/-- A primitive JSON value: a string or a number. -/
inductive JPrim where
  | jstr : String → JPrim
  | jnum : ℚ → JPrim
deriving DecidableEq, Repr

/-- A JSON object / Python dict with primitive values. -/
abbrev JObj := List (String × JPrim)

/-- Dict lookup, `payload.get(key)` for a present key and `none` for an
absent one. -/
def lookupJ : JObj → String → Option JPrim
  | [], _ => none
  | (k, v) :: rest, key => if k = key then some v else lookupJ rest key

/-- Extraction `payload.get("device_id", "unknown")` (line 413). -/
def payloadDeviceId (p : JObj) : JPrim :=
  (lookupJ p "device_id").getD (.jstr "unknown")

/-- Extraction `payload.get("timestamp", "")` (line 414). -/
def payloadTimestamp (p : JObj) : JPrim :=
  (lookupJ p "timestamp").getD (.jstr "")

/-- Extraction `payload.get("power", 0.0)` (line 415). -/
def payloadPower (p : JObj) : JPrim :=
  (lookupJ p "power").getD (.jnum 0)

/-- A reading: one timestamped power measurement of one device. -/
structure Reading where
  device_id : String
  timestamp : String
  power : ℚ
deriving DecidableEq, Repr

/-- The payload dict built by `simulate_device` (lines 597-601) from a
reading. -/
def encodeReading (r : Reading) : JObj :=
  [("device_id", .jstr r.device_id),
   ("timestamp", .jstr r.timestamp),
   ("power", .jnum r.power)]

/-- The consumer-side extraction of a reading from a received payload,
using exactly the lookups of `process_json_message`; `none` when a
field does not have the expected shape. -/
def decodeReading (p : JObj) : Option Reading :=
  match payloadDeviceId p, payloadTimestamp p, payloadPower p with
  | .jstr d, .jstr t, .jnum q => some { device_id := d, timestamp := t, power := q }
  | _, _, _ => none

/-! ## ApplicationLayer (`class ApplicationLayer`, lines 325-461) -/

/-- One per-device record of `ApplicationLayer.device_stats`
(lines 419-424); `min_power = none` is the initial `float('inf')`. -/
structure DevRec where
  message_count : ℕ
  total_power : ℚ
  max_power : ℚ
  min_power : Option ℚ
deriving DecidableEq, Repr

/-- The record appended to `received_messages` (lines 432-437). -/
structure RecvMsg where
  device_id : JPrim
  timestamp : JPrim
  power : JPrim
  topic : String
deriving DecidableEq, Repr

/-- State of `ApplicationLayer`.  `device_stats` is the dict keyed by
the raw `device_id` value of the payload. -/
structure AppState where
  received_messages : List RecvMsg
  processed_count : ℕ
  device_stats : JPrim → Option DevRec
  topic_filter : String
  subscribed : Bool

/-- Constructor `ApplicationLayer.__init__` (lines 335-351). -/
def AppState.init (tf : String) : AppState :=
  { received_messages := [], processed_count := 0,
    device_stats := fun _ => none, topic_filter := tf, subscribed := false }

/-- Pointwise dict update `self.device_stats[k] = v`. -/
def updStats (f : JPrim → Option DevRec) (k : JPrim) (v : DevRec) :
    JPrim → Option DevRec :=
  fun k' => if k' = k then some v else f k'

/-- Method `ApplicationLayer.process_json_message(topic, payload)`
(lines 393-461).  The body runs inside `try/except`: with a numeric
`power` every mutation happens; with a string `power` the statement
`stats["total_power"] += power` raises `TypeError` after
`stats["message_count"] += 1` has already run, the handler catches it,
and only that increment persists (`received_messages` and
`processed_count` are untouched). -/
def AppState.process_json_message (s : AppState) (topic : String) (payload : JObj) :
    AppState :=
  let device_id := payloadDeviceId payload
  let timestamp := payloadTimestamp payload
  let r0 := (s.device_stats device_id).getD
    { message_count := 0, total_power := 0, max_power := 0, min_power := none }
  match payloadPower payload with
  | .jnum q =>
      let r1 : DevRec :=
        { message_count := r0.message_count + 1
          total_power := r0.total_power + q
          max_power := max r0.max_power q
          min_power := some (match r0.min_power with
            | none => q
            | some m => min m q) }
      { s with
        device_stats := updStats s.device_stats device_id r1
        received_messages := s.received_messages ++
          [{ device_id := device_id, timestamp := timestamp,
             power := .jnum q, topic := topic }]
        processed_count := s.processed_count + 1 }
  | .jstr _ =>
      { s with
        device_stats := updStats s.device_stats device_id
          { r0 with message_count := r0.message_count + 1 } }

/-- A fresh consumer fed a sequence of `(topic, payload)` messages by
repeated `process_json_message` calls. -/
def AppState.replay (tf : String) (msgs : List (String × JObj)) : AppState :=
  msgs.foldl (fun s m => s.process_json_message m.1 m.2) (AppState.init tf)

/-! ## MQTTClient (`class MQTTClient`, lines 91-222) -/

/-- State of `MQTTClient`: the `connected` flag and the log of
messages handed to the broker (the visible effect of a successful
`publish`). -/
structure MQTTClient where
  connected : Bool
  sent : List (String × JObj)
deriving Repr

/-- Method `MQTTClient.publish(topic, payload, qos, retain)`
(lines 178-214): when not connected it returns `False` before touching
anything; otherwise the payload is serialized and handed to the paho
client (delivery modelled as the success branch, line 206-207). -/
def MQTTClient.publish (c : MQTTClient) (topic : String) (payload : JObj)
    (qos : ℕ) (retain : Bool) : Bool × MQTTClient :=
  if !c.connected then (false, c)
  else (true, { c with sent := c.sent ++ [(topic, payload)] })

/-- Number of 0.1-unit polls in the 5-unit connect timeout
(lines 143-146). -/
def connectPolls : ℕ := 50

/-- The wait loop of `connect` (lines 143-146): `flagAt i` is the value
of `self.connected` observed at the i-th iteration of
`while not self.connected and (time.time() - start_time) < timeout`,
written asynchronously by `_on_connect`.  Returns the final value of
the flag when the loop exits. -/
def waitFlag (flagAt : ℕ → Bool) : ℕ → ℕ → Bool
  | i, 0 => flagAt i
  | i, fuel + 1 => if flagAt i then true else waitFlag flagAt (i + 1) fuel

/-- Method `MQTTClient.connect` (lines 123-158), from the start of the
wait loop: it polls `connected` up to the timeout and returns `True`
only if the flag was seen set; on timeout it prints and returns
`False`.  It is total and never throws: the `except` branch of the
source also returns `False`. -/
def MQTTClient.connect (c : MQTTClient) (flagAt : ℕ → Bool) : Bool × MQTTClient :=
  let ok := waitFlag flagAt 0 connectPolls
  (ok, { c with connected := ok })

/-! ## simulate_device (lines 523-694), simulated-transport mode -/

/-- One CSV row: a timestamp and a power value. -/
structure Row where
  timestamp : String
  power : ℚ
deriving DecidableEq, Repr

/-- The payload dict built from a row (lines 597-601). -/
def payloadOf (device_id : String) (row : Row) : JObj :=
  encodeReading { device_id := device_id, timestamp := row.timestamp, power := row.power }

/-- One iteration of the simulation loop in simulated-transport mode
(no connected networked client): `fake_mqtt_publish` updates the
`LiveStats` (line 238) and the reading is handed synchronously to
`processor.process_json_message` (line 644) on the topic
`topic_prefix/device_id/power` (line 604). -/
def simStep (device_id topicRoot : String) (st : LiveStats × AppState) (row : Row) :
    LiveStats × AppState :=
  let topic := topicRoot ++ "/" ++ device_id ++ "/power"
  (st.1.add_data row.power,
   st.2.process_json_message topic (payloadOf device_id row))

/-- Function `simulate_device` in simulated-transport mode, restricted
to its state effects: fold the loop body over the rows, starting from a
fresh `LiveStats` and a fresh `ApplicationLayer` whose topic filter is
`topic_prefix/+/power` (lines 556-558).  The parameter `topicRoot` is
the source's `topic_prefix`. -/
def simulate_device (device_name device_id topicRoot : String) (rows : List Row) :
    LiveStats × AppState :=
  rows.foldl (simStep device_id topicRoot)
    (LiveStats.init device_id device_name, AppState.init (topicRoot ++ "/+/power"))

end IoTSim

namespace IoTSim

/-! ## Helper lemmas about `LiveStats` -/

theorem foldl_add_data_message_count (ps : List ℚ) : ∀ s : LiveStats,
    (ps.foldl LiveStats.add_data s).message_count = s.message_count + ps.length := by
  induction ps with
  | nil => intro s; simp
  | cons p ps ih =>
      intro s
      simp only [List.foldl_cons, ih, LiveStats.add_data, List.length_cons]
      omega

theorem foldl_add_data_total_power (ps : List ℚ) : ∀ s : LiveStats,
    (ps.foldl LiveStats.add_data s).total_power = s.total_power + ps.sum := by
  induction ps with
  | nil => intro s; simp
  | cons p ps ih =>
      intro s
      simp only [List.foldl_cons, ih, LiveStats.add_data, List.sum_cons]
      ring

theorem foldl_add_data_max_power (ps : List ℚ) : ∀ s : LiveStats,
    (ps.foldl LiveStats.add_data s).max_power = ps.foldl max s.max_power := by
  induction ps with
  | nil => intro s; simp
  | cons p ps ih =>
      intro s
      simp only [List.foldl_cons, ih, LiveStats.add_data]

theorem foldl_add_data_min_power (ps : List ℚ) : ∀ (s : LiveStats) (m : ℚ),
    s.min_power = some m →
    (ps.foldl LiveStats.add_data s).min_power = some (ps.foldl min m) := by
  induction ps with
  | nil => intro s m h; simpa using h
  | cons p ps ih =>
      intro s m h
      simp only [List.foldl_cons]
      exact ih _ _ (by simp [LiveStats.add_data, h])

theorem foldl_add_data_recent (ps : List ℚ) : ∀ s : LiveStats,
    (ps.foldl LiveStats.add_data s).recent_powers =
      ps.foldl (pushRecent 20) s.recent_powers := by
  induction ps with
  | nil => intro s; simp
  | cons p ps ih => intro s; simp only [List.foldl_cons, ih, LiveStats.add_data]

theorem length_pushRecent (cap : ℕ) (l : List ℚ) (p : ℚ) :
    (pushRecent cap l p).length = min (l.length + 1) cap := by
  simp [pushRecent]
  omega

theorem foldl_pushRecent_eq_drop (ps : List ℚ) : ∀ l : List ℚ, l.length ≤ 20 →
    ps.foldl (pushRecent 20) l = (l ++ ps).drop ((l.length + ps.length) - 20) := by
  induction ps with
  | nil =>
      intro l hl
      rw [show l.length + [].length - 20 = 0 by simp; omega]
      simp
  | cons p ps ih =>
      intro l hl
      have hlen : (pushRecent 20 l p).length = min (l.length + 1) 20 :=
        length_pushRecent _ _ _
      rw [List.foldl_cons, ih _ (by omega)]
      have hd : pushRecent 20 l p = (l ++ [p]).drop (l.length + 1 - 20) := by
        simp [pushRecent]
      have key : (pushRecent 20 l p) ++ ps = (l ++ p :: ps).drop (l.length + 1 - 20) := by
        rw [hd, ← List.drop_append_of_le_length (by simp; omega)]
        simp
      rw [key, List.drop_drop]
      have hidx : l.length + 1 - 20 + ((pushRecent 20 l p).length + ps.length - 20)
          = l.length + (p :: ps).length - 20 := by
        simp only [List.length_cons]
        omega
      rw [hidx]

theorem replay_message_count (d dn : String) (ps : List ℚ) :
    (LiveStats.replay d dn ps).message_count = ps.length := by
  simpa [LiveStats.replay, LiveStats.init] using
    foldl_add_data_message_count ps (LiveStats.init d dn)

theorem replay_total_power (d dn : String) (ps : List ℚ) :
    (LiveStats.replay d dn ps).total_power = ps.sum := by
  simpa [LiveStats.replay, LiveStats.init] using
    foldl_add_data_total_power ps (LiveStats.init d dn)

theorem replay_max_power (d dn : String) (ps : List ℚ) :
    (LiveStats.replay d dn ps).max_power = ps.foldl max 0 := by
  simpa [LiveStats.replay, LiveStats.init] using
    foldl_add_data_max_power ps (LiveStats.init d dn)

theorem replay_min_power_cons (d dn : String) (a : ℚ) (as : List ℚ) :
    (LiveStats.replay d dn (a :: as)).min_power = some (as.foldl min a) := by
  unfold LiveStats.replay
  rw [List.foldl_cons]
  exact foldl_add_data_min_power as _ a (by simp [LiveStats.init, LiveStats.add_data])

theorem replay_avg_cons (d dn : String) (a : ℚ) (as : List ℚ) :
    (LiveStats.replay d dn (a :: as)).get_avg_power =
      (a :: as).sum / ((a :: as).length : ℚ) := by
  have hc := replay_message_count d dn (a :: as)
  have ht := replay_total_power d dn (a :: as)
  simp only [LiveStats.get_avg_power, hc, ht]
  rw [if_pos (by simp)]

theorem truncQ_zero : truncQ 0 = 0 := by simp [truncQ]

theorem truncQ_intCast (z : ℤ) : truncQ (z : ℚ) = z := by
  unfold truncQ
  split
  · exact Int.floor_intCast z
  · exact Int.ceil_intCast z

theorem truncQ_nonpos {q : ℚ} (h : q ≤ 0) : truncQ q ≤ 0 := by
  unfold truncQ
  split
  · exact Int.floor_nonpos h
  · exact Int.ceil_le.mpr (by exact_mod_cast h)

theorem truncQ_le_natCast {q : ℚ} {w : ℕ} (h : q ≤ (w : ℚ)) : truncQ q ≤ (w : ℤ) := by
  unfold truncQ
  split
  · calc ⌊q⌋ ≤ ⌊((w : ℕ) : ℚ)⌋ := Int.floor_le_floor h
      _ = (w : ℤ) := Int.floor_natCast w
  · exact Int.ceil_le.mpr (by exact_mod_cast h)

theorem foldl_add_data_max_nonneg (ps : List ℚ) : ∀ s : LiveStats,
    0 ≤ s.max_power → 0 ≤ (ps.foldl LiveStats.add_data s).max_power := by
  induction ps with
  | nil => intro s h; simpa using h
  | cons p ps ih =>
      intro s h
      exact ih _ (le_trans h (by simp [LiveStats.add_data, le_max_left]))

theorem foldl_add_data_current_le_max (ps : List ℚ) : ∀ s : LiveStats,
    s.current_power ≤ s.max_power →
    (ps.foldl LiveStats.add_data s).current_power ≤
      (ps.foldl LiveStats.add_data s).max_power := by
  induction ps with
  | nil => intro s h; simpa using h
  | cons p ps ih =>
      intro s _
      exact ih _ (by simp [LiveStats.add_data, le_max_right])

theorem add_data_inv (s : LiveStats) (p : ℚ) :
    ∃ m, (s.add_data p).min_power = some m ∧
      m ≤ (s.add_data p).current_power ∧
      (s.add_data p).current_power ≤ (s.add_data p).max_power := by
  cases h : s.min_power with
  | none =>
      refine ⟨p, ?_, ?_, ?_⟩
      · simp [LiveStats.add_data, h]
      · simp [LiveStats.add_data]
      · simp [LiveStats.add_data, le_max_right]
  | some m =>
      refine ⟨min m p, ?_, ?_, ?_⟩
      · simp [LiveStats.add_data, h]
      · simp [LiveStats.add_data, min_le_right]
      · simp [LiveStats.add_data, le_max_right]

theorem foldl_add_data_inv (ps : List ℚ) : ∀ s : LiveStats,
    (∃ m, s.min_power = some m ∧ m ≤ s.current_power ∧
      s.current_power ≤ s.max_power) →
    ∃ m, (ps.foldl LiveStats.add_data s).min_power = some m ∧
      m ≤ (ps.foldl LiveStats.add_data s).current_power ∧
      (ps.foldl LiveStats.add_data s).current_power ≤
        (ps.foldl LiveStats.add_data s).max_power := by
  induction ps with
  | nil => intro s h; simpa using h
  | cons p ps ih => intro s _; exact ih _ (add_data_inv s p)

theorem get_power_bar_spec (s : LiveStats) (w : ℕ)
    (hmax : 0 ≤ s.max_power) (hcm : s.current_power ≤ s.max_power) :
    (s.get_power_bar w).count true = (truncQ (clamp01 (powerFrac s) * w)).toNat ∧
    (s.get_power_bar w).length = w + (-(truncQ (powerFrac s * w))).toNat := by
  by_cases h0 : s.max_power = 0
  · constructor
    · simp [LiveStats.get_power_bar, powerFrac, clamp01, h0, truncQ_zero,
        List.count_replicate]
    · simp [LiveStats.get_power_bar, powerFrac, h0, truncQ_zero]
  · have hpos : 0 < s.max_power := lt_of_le_of_ne hmax (Ne.symm h0)
    have hfrac : powerFrac s = s.current_power / s.max_power := by
      simp [powerFrac, h0]
    have hbar : s.get_power_bar w =
        List.replicate (truncQ (s.current_power / s.max_power * w)).toNat true ++
        List.replicate (((w : ℤ) - truncQ (s.current_power / s.max_power * w)).toNat)
          false := by
      simp [LiveStats.get_power_bar, h0, hpos]
    set f : ℤ := truncQ (s.current_power / s.max_power * w) with hf
    have hcount : (s.get_power_bar w).count true = f.toNat := by
      rw [hbar]
      simp [List.count_append, List.count_replicate]
    have hfle : f ≤ (w : ℤ) := by
      apply truncQ_le_natCast
      have h1 : s.current_power / s.max_power ≤ 1 := (div_le_one hpos).mpr hcm
      calc s.current_power / s.max_power * w ≤ 1 * w := by
            apply mul_le_mul_of_nonneg_right h1 (by positivity)
        _ = (w : ℚ) := one_mul _
    have hlen : (s.get_power_bar w).length = w + (-f).toNat := by
      rw [hbar]
      simp only [List.length_append, List.length_replicate]
      omega
    by_cases hc : 0 ≤ s.current_power
    · have hn0 : 0 ≤ s.current_power / s.max_power := div_nonneg hc (le_of_lt hpos)
      have hn1 : s.current_power / s.max_power ≤ 1 := (div_le_one hpos).mpr hcm
      have hcl : clamp01 (powerFrac s) = s.current_power / s.max_power := by
        rw [hfrac, clamp01, min_eq_right hn1, max_eq_right hn0]
      refine ⟨?_, ?_⟩
      · rw [hcount, hcl, hf]
      · rw [hlen, hfrac, hf]
    · push_neg at hc
      have hn : s.current_power / s.max_power < 0 := div_neg_of_neg_of_pos hc hpos
      have hnw : s.current_power / s.max_power * w ≤ 0 := by
        calc s.current_power / s.max_power * w ≤ 0 * w := by
              apply mul_le_mul_of_nonneg_right (le_of_lt hn) (by positivity)
          _ = 0 := zero_mul _
      have hcl : clamp01 (powerFrac s) = 0 := by
        rw [hfrac, clamp01, min_eq_right (le_trans (le_of_lt hn) zero_le_one),
          max_eq_left (le_of_lt hn)]
      have hf0 : f ≤ 0 := truncQ_nonpos hnw
      refine ⟨?_, ?_⟩
      · rw [hcount, hcl]
        simp only [zero_mul, truncQ_zero, Int.toNat_zero]
        omega
      · rw [hlen, hfrac, hf]

theorem replay_ten_neg_five : LiveStats.replay "fridge_207" "Buzdolabi" [10, -5] =
    { device_id := "fridge_207", device_name := "Buzdolabi", message_count := 2,
      total_power := 5, max_power := 10, min_power := some (-5),
      current_power := -5, recent_powers := [10, -5] } := by
  norm_num [LiveStats.replay, LiveStats.init, LiveStats.add_data, pushRecent]

end IoTSim

namespace IoTSim

/-! ## Helper lemmas about the consumer and the simulated replay -/

theorem payloadDeviceId_payloadOf (d : String) (row : Row) :
    payloadDeviceId (payloadOf d row) = .jstr d := rfl

theorem payloadTimestamp_payloadOf (d : String) (row : Row) :
    payloadTimestamp (payloadOf d row) = .jstr row.timestamp := rfl

theorem payloadPower_payloadOf (d : String) (row : Row) :
    payloadPower (payloadOf d row) = .jnum row.power := rfl

theorem process_preserves_count_eq (s : AppState) (topic : String) (p : JObj)
    (h : s.processed_count = s.received_messages.length) :
    (s.process_json_message topic p).processed_count =
      (s.process_json_message topic p).received_messages.length := by
  unfold AppState.process_json_message
  cases hp : payloadPower p with
  | jnum q => simp [hp, h]
  | jstr t => simp [hp, h]

theorem foldl_process_count_eq (msgs : List (String × JObj)) : ∀ s : AppState,
    s.processed_count = s.received_messages.length →
    (msgs.foldl (fun t m => t.process_json_message m.1 m.2) s).processed_count =
      (msgs.foldl (fun t m => t.process_json_message m.1 m.2) s).received_messages.length := by
  induction msgs with
  | nil => intro s h; simpa using h
  | cons m ms ih =>
      intro s h
      exact ih _ (process_preserves_count_eq s m.1 m.2 h)

theorem process_payloadOf_processed (s : AppState) (t d : String) (row : Row) :
    (s.process_json_message t (payloadOf d row)).processed_count =
      s.processed_count + 1 := by
  unfold AppState.process_json_message
  simp [payloadPower_payloadOf]

theorem process_payloadOf_device_count (s : AppState) (t d : String) (row : Row) :
    ((s.process_json_message t (payloadOf d row)).device_stats (.jstr d)).map
        DevRec.message_count =
      some ((((s.device_stats (.jstr d)).map DevRec.message_count).getD 0) + 1) := by
  unfold AppState.process_json_message
  simp only [payloadPower_payloadOf, payloadDeviceId_payloadOf, updStats]
  cases h : s.device_stats (.jstr d) with
  | none => simp [h]
  | some r => simp [h]

theorem sim_foldl_processed (d tr : String) (rows : List Row) :
    ∀ st : LiveStats × AppState,
    ((rows.foldl (simStep d tr) st).2).processed_count =
      st.2.processed_count + rows.length := by
  induction rows with
  | nil => intro st; simp
  | cons r rs ih =>
      intro st
      rw [List.foldl_cons, ih]
      show (simStep d tr st r).2.processed_count + rs.length = _
      rw [show (simStep d tr st r).2 =
        st.2.process_json_message (tr ++ "/" ++ d ++ "/power") (payloadOf d r) from rfl]
      rw [process_payloadOf_processed]
      simp
      omega

theorem sim_foldl_device_count (d tr : String) (rows : List Row) :
    ∀ st : LiveStats × AppState,
    (((rows.foldl (simStep d tr) st).2).device_stats (.jstr d)).map DevRec.message_count =
      if rows.isEmpty then (st.2.device_stats (.jstr d)).map DevRec.message_count
      else some ((((st.2.device_stats (.jstr d)).map DevRec.message_count).getD 0)
        + rows.length) := by
  induction rows with
  | nil => intro st; simp
  | cons r rs ih =>
      intro st
      have hstep := process_payloadOf_device_count st.2 (tr ++ "/" ++ d ++ "/power") d r
      have h2 : (simStep d tr st r).2 =
          st.2.process_json_message (tr ++ "/" ++ d ++ "/power") (payloadOf d r) := rfl
      rw [List.foldl_cons, ih, h2, hstep]
      by_cases he : rs.isEmpty
      · have h0 : rs.length = 0 := by
          cases rs with
          | nil => rfl
          | cons a as => simp at he
        simp [he, h0]
      · simp only [he, if_false, List.isEmpty_cons, Bool.false_eq_true,
          Option.getD_some, List.length_cons, Option.some.injEq]
        omega

theorem waitFlag_all_false (flagAt : ℕ → Bool) (h : ∀ i, flagAt i = false) :
    ∀ (fuel i : ℕ), waitFlag flagAt i fuel = false := by
  intro fuel
  induction fuel with
  | zero => intro i; simp [waitFlag, h]
  | succ n ih => intro i; simp [waitFlag, h, ih]

end IoTSim

namespace IoTSim

/-! ## Claims -/

/-- C1, counterexample.  The claim says `max_power = max(pi)` for any
real inputs, but `LiveStats.__init__` starts the running max at `0.0`,
so after the single call `add_data(-1)` the aggregator holds
`max_power = max(0, -1) = 0`, not `max([-1]) = -1`. -/
theorem claim1_counterexample :
    ¬ ((LiveStats.replay "fridge_207" "Buzdolabi" [(-1 : ℚ)]).max_power =
        List.foldl max (-1 : ℚ) []) := by
  norm_num [LiveStats.replay, LiveStats.init, LiveStats.add_data]

/-- C1, amended.  After `add_data(p1..pn)` with n ≥ 1 on a fresh
`LiveStats`: `message_count = n`, `max_power = max(0, p1..pn)` (the
running max starts at 0, so an all-negative sequence reports 0),
`min_power = min(pi)`, `total_power = sum(pi)` and
`get_avg_power() = sum(pi)/n`. -/
theorem claim1_stats_after_replay (d dn : String) (a : ℚ) (as : List ℚ) :
    (LiveStats.replay d dn (a :: as)).message_count = (a :: as).length ∧
    (LiveStats.replay d dn (a :: as)).max_power = (a :: as).foldl max 0 ∧
    (LiveStats.replay d dn (a :: as)).min_power = some (as.foldl min a) ∧
    (LiveStats.replay d dn (a :: as)).total_power = (a :: as).sum ∧
    (LiveStats.replay d dn (a :: as)).get_avg_power =
      (a :: as).sum / ((a :: as).length : ℚ) :=
  ⟨replay_message_count d dn (a :: as), replay_max_power d dn (a :: as),
   replay_min_power_cons d dn a as, replay_total_power d dn (a :: as),
   replay_avg_cons d dn a as⟩

/-- C2, counterexample.  The claim says the bar always has the given
width with a `[0,1]`-clamped fill ratio, but `get_power_bar` never
clamps: after `add_data(10); add_data(-5)` the ratio is `-1/2`,
`int(-0.5*30) = -15`, and Python produces `"" + "░"*45`, a bar of
length 45 instead of 30. -/
theorem claim2_counterexample :
    ((LiveStats.replay "fridge_207" "Buzdolabi" [10, -5]).get_power_bar 30).length
      ≠ 30 := by
  rw [replay_ten_neg_five]
  have h2 : truncQ ((-15 : ℚ)) = (-15 : ℤ) := by
    rw [show ((-15 : ℚ)) = ((-15 : ℤ) : ℚ) by norm_num]
    exact truncQ_intCast _
  simp only [LiveStats.get_power_bar]
  norm_num [h2]
  all_goals decide

/-- C2, amended.  On every state reachable by `add_data` calls, the
number of filled cells of `get_power_bar(width)` equals
`int(clamp01(current/max) * width)` (0 when `max == 0`), but the bar
has the requested width only when the unclamped `int((current/max) *
width)` is nonnegative: for `current_power < 0 < max_power` the bar is
`width + |int((current/max)*width)|` cells long. -/
theorem claim2_power_bar_cells (d dn : String) (ps : List ℚ) (w : ℕ) :
    ((LiveStats.replay d dn ps).get_power_bar w).count true =
      (truncQ (clamp01 (powerFrac (LiveStats.replay d dn ps)) * w)).toNat ∧
    ((LiveStats.replay d dn ps).get_power_bar w).length =
      w + (-(truncQ (powerFrac (LiveStats.replay d dn ps) * w))).toNat := by
  apply get_power_bar_spec
  · exact foldl_add_data_max_nonneg ps _ (by simp [LiveStats.init])
  · exact foldl_add_data_current_le_max ps _ (by simp [LiveStats.init])

/-- C3.  Every `LiveStats` state reached from the initial state by at
least one `add_data` call (arbitrary real powers) satisfies
`min_power ≤ current_power ≤ max_power` and has `message_count ≥ 1`:
`add_data` preserves the invariant. -/
theorem claim3_min_le_current_le_max (d dn : String) (a : ℚ) (as : List ℚ) :
    1 ≤ (LiveStats.replay d dn (a :: as)).message_count ∧
    ∃ m, (LiveStats.replay d dn (a :: as)).min_power = some m ∧
      m ≤ (LiveStats.replay d dn (a :: as)).current_power ∧
      (LiveStats.replay d dn (a :: as)).current_power ≤
        (LiveStats.replay d dn (a :: as)).max_power := by
  constructor
  · rw [replay_message_count]
    simp
  · unfold LiveStats.replay
    rw [List.foldl_cons]
    exact foldl_add_data_inv as _ (add_data_inv _ a)

/-- C4, counterexample.  The claim asserts
`device_stats[device_id]["message_count"] = n` for every n ≥ 0, but
after replaying zero readings the consumer's `device_stats` dict has no
entry for the device at all (indexing it would raise `KeyError`), so
its `message_count` is not 0 — it does not exist. -/
theorem claim4_counterexample :
    (((simulate_device "Buzdolabi" "fridge_207" "home/appliance" []).2).device_stats
        (.jstr "fridge_207")).map DevRec.message_count ≠ some 0 := by
  simp [simulate_device, AppState.init]

/-- C4, amended.  In simulated-transport mode, replaying n readings for
one device gives the paired consumer `processed_count = n` for every
n ≥ 0; `device_stats[device_id]` exists with `message_count = n` for
every n ≥ 1, and the entry is absent when n = 0 (it is created lazily
on the first message). -/
theorem claim4_simulated_counts (dn d tr : String) (rows : List Row) :
    ((simulate_device dn d tr rows).2).processed_count = rows.length ∧
    (((simulate_device dn d tr rows).2).device_stats (.jstr d)).map
        DevRec.message_count =
      (if rows.isEmpty then none else some rows.length) := by
  constructor
  · simpa [simulate_device, AppState.init] using
      sim_foldl_processed d tr rows
        (LiveStats.init d dn, AppState.init (tr ++ "/+/power"))
  · have h := sim_foldl_device_count d tr rows
      (LiveStats.init d dn, AppState.init (tr ++ "/+/power"))
    simpa [simulate_device, AppState.init] using h

/-- C5.  After any sequence of n `add_data` calls, `recent_powers` is
exactly the last `min(n, 20)` inputs in arrival order (the deque of
capacity 20 evicts the oldest on overflow and never exceeds 20). -/
theorem claim5_recent_powers_window (d dn : String) (ps : List ℚ) :
    (LiveStats.replay d dn ps).recent_powers = ps.drop (ps.length - 20) ∧
    (LiveStats.replay d dn ps).recent_powers.length = min ps.length 20 := by
  have h1 : (LiveStats.replay d dn ps).recent_powers =
      ps.foldl (pushRecent 20) [] := by
    simpa [LiveStats.replay, LiveStats.init] using
      foldl_add_data_recent ps (LiveStats.init d dn)
  have h2 := foldl_pushRecent_eq_drop ps ([] : List ℚ) (by simp)
  simp only [List.nil_append, List.length_nil, Nat.zero_add] at h2
  constructor
  · rw [h1, h2]
  · rw [h1, h2]
    simp only [List.length_drop]
    omega

/-- C6.  Encoding a valid reading to the wire payload and decoding it
on the consumer side yields an equal reading: the three extractions
used by `process_json_message` recover exactly the original
`device_id`, `timestamp` and `power` (the textual `json.dumps` /
`json.loads` step is Python's standard library, modelled by its
round-trip contract). -/
theorem claim6_reading_roundtrip (r : Reading) :
    decodeReading (encodeReading r) = some r ∧
    payloadDeviceId (encodeReading r) = .jstr r.device_id ∧
    payloadTimestamp (encodeReading r) = .jstr r.timestamp ∧
    payloadPower (encodeReading r) = .jnum r.power :=
  ⟨rfl, rfl, rfl, rfl⟩

/-- C7.  When `connected` is false, `MQTTClient.publish` returns
`False` and leaves the client state — in particular the log of sent
messages — unchanged, so no consumer ever receives anything and no
`processed_count` can change. -/
theorem claim7_publish_disconnected (c : MQTTClient) (topic : String) (payload : JObj)
    (qos : ℕ) (rtn : Bool) (h : c.connected = false) :
    c.publish topic payload qos rtn = (false, c) := by
  simp [MQTTClient.publish, h]

/-- C7, witness: a concrete disconnected client. -/
theorem claim7_publish_disconnected_witness :
    MQTTClient.publish { connected := false, sent := [] }
      "home/appliance/fridge_207/power" [] 0 false =
      (false, { connected := false, sent := [] }) :=
  claim7_publish_disconnected _ _ _ _ _ rfl

/-- C8.  If the asynchronous `on_connect` acknowledgment never sets the
`connected` flag during the fixed wait (50 polls of 0.1 inside the
5-unit timeout), `connect()` returns `False` and the flag stays false;
the function is total, so it cannot throw or abort. -/
theorem claim8_connect_timeout (c : MQTTClient) (flagAt : ℕ → Bool)
    (hc : c.connected = false) (h : ∀ i, flagAt i = false) :
    c.connect flagAt = (false, c) := by
  have hwait := waitFlag_all_false flagAt h connectPolls 0
  cases c with
  | mk conn sent =>
      simp only at hc
      subst hc
      simp [MQTTClient.connect, hwait]

/-- C8, witness: a concrete client whose acknowledgment never
arrives. -/
theorem claim8_connect_timeout_witness :
    MQTTClient.connect { connected := false, sent := [] } (fun _ => false) =
      (false, { connected := false, sent := [] }) :=
  claim8_connect_timeout _ _ rfl (fun _ => rfl)

/-- C9.  `get_avg_power()` returns 0 when `message_count = 0` — in
particular after replaying an empty reading sequence, which performs
zero iterations and leaves the fresh state intact — and returns
`total_power / message_count = sum(pi)/n` once messages have
arrived. -/
theorem claim9_avg_power (d dn : String) (ps : List ℚ) :
    (LiveStats.replay d dn []).get_avg_power = 0 ∧
    (LiveStats.replay d dn []).message_count = 0 ∧
    (LiveStats.replay d dn ps).get_avg_power =
      if ps.isEmpty then 0 else ps.sum / (ps.length : ℚ) := by
  refine ⟨rfl, rfl, ?_⟩
  cases ps with
  | nil => rfl
  | cons a as =>
      rw [replay_avg_cons]
      simp

/-- C10.  In every consumer state reachable by `process_json_message`
calls — including payloads whose non-numeric `power` makes the body
raise inside the `try` block — `processed_count` equals the length of
`received_messages`: the append and the increment happen together or
not at all. -/
theorem claim10_processed_eq_received (tf : String) (msgs : List (String × JObj)) :
    (AppState.replay tf msgs).processed_count =
      (AppState.replay tf msgs).received_messages.length := by
  unfold AppState.replay
  exact foldl_process_count_eq msgs (AppState.init tf) rfl

end IoTSim
